import Mathlib

/-!
Shallow embedding of `src/main.rs` of the tg-sticker-maker-bot repository.

The program is a Telegram bot converting images and GIF clips into sticker
assets.  The external collaborators (the Telegram API, the `image` crate's
decoder/encoders and the spawned `ffmpeg` process) are modelled as oracle
functions gathered in an `Env` record; the control flow of the Rust source is
translated function by function.  Every function additionally returns the
list of external effects it performed, so that statements such as "the
external process is invoked at most twice" or "no download occurs" can be
expressed as facts about the effect trace.
-/

/-- `const MAX_SIZE: u32 = 10 << 20;` (main.rs line 20). -/
def MAX_SIZE : Nat := 10 <<< 20

/-- `const MAX_OUTPUT_WEBM_SIZE: usize = 256 * 1000;` (main.rs line 21). -/
def MAX_OUTPUT_WEBM_SIZE : Nat := 256 * 1000

/-- The argument list passed to the external `ffmpeg` process for a given
attempt: `FFMPEG_ARGS.0`, then the input file, then `-lossless 1` exactly when
the attempt is not lossy, then `FFMPEG_ARGS.1` (main.rs lines 25-37, 95-101). -/
def ffmpeg_args (lossy : Bool) (file : String) : List String :=
  ["-hide_banner", "-t", "3", "-i", file] ++
    (if lossy then [] else ["-lossless", "1"]) ++
    ["-vf", "scale=w=512:h=512:force_original_aspect_ratio=decrease",
     "-c:v", "libvpx-vp9", "-f", "webm", "-an", "-"]

/-- Errors produced with `bail!`.  `badRequest` embeds the `BadRequest`
struct (main.rs lines 39-54), whose static message is shown to the user
verbatim; every other `anyhow` error is `other` and is shown as a generic
message (main.rs lines 225-232). -/
inductive AppError where
  | badRequest (msg : String)
  | other (msg : String)
deriving DecidableEq, Repr

/-- The observable outcome of one `ffmpeg` invocation: its exit status and
the bytes it wrote to its standard output (modelled as a list of bytes). -/
structure FfmpegOutput where
  success : Bool
  stdout : List Nat
deriving DecidableEq, Repr

/-- External effects performed while handling one request. -/
inductive Effect where
  | getFile (file_id : String)
  | download (path : String)
  | decode
  | ffmpeg (lossy : Bool)
  | send (name : String)
deriving DecidableEq, Repr

/-- Oracles for the external collaborators.  `Img` is the type of the
in-memory decoded pixel buffer (`image::DynamicImage`), kept abstract.
`decode` models `ImageReader::with_guessed_format().decode()`,
`resize` models `img.resize(512, 512, FilterType::Lanczos3)`,
`webpEncodeLossless` models `WebpEncoder::from_image` followed by
`encode_lossless` (`none` when `from_image` fails with Unimplemented),
`pngEncode` models `img.write_to(.., ImageOutputFormat::Png)` (fallible),
`ffmpeg` models spawning the external process for a given lossy flag
(`Except.error` when `spawn`/`wait_with_output` themselves fail),
`getFile`, `download` and `sendDocument` model the Telegram API calls. -/
structure Env (Img : Type) where
  getFile : String → Except Unit (String × Nat)
  download : String → Except Unit (List Nat)
  decode : List Nat → Option Img
  resize : Img → Img
  webpEncodeLossless : Img → Option (List Nat)
  pngEncode : Img → Except Unit (List Nat)
  ffmpeg : Bool → Except Unit FfmpegOutput
  sendDocument : String → List Nat → Except Unit Unit

/-- `async fn process_image` (main.rs lines 56-84): decode, resize to the
512×512 bounding box, lossless webp encoding with a png fallback when the
webp encoder rejects the input; decode failure is the `BadRequest`
"File is not an image!". -/
def process_image {Img : Type} (env : Env Img) (file : List Nat) :
    Except AppError (List Nat × String) × List Effect :=
  match env.decode file with
  | some img =>
      let img := env.resize img
      (match env.webpEncodeLossless img with
       | some mem => Except.ok (mem, "webp")
       | none =>
           match env.pngEncode img with
           | Except.ok v => Except.ok (v, "png")
           | Except.error _ => Except.error (AppError.other "png write"),
       [Effect.decode])
  | none => (Except.error (AppError.badRequest "File is not an image!"), [Effect.decode])

/-- `async fn process_video` (main.rs lines 88-118): the retry loop over the
`lossy` flag.  One iteration invokes `ffmpeg`; a spawn/wait failure or a
non-zero exit status aborts; otherwise, if still lossless and the output is
larger than `MAX_OUTPUT_WEBM_SIZE`, the loop repeats with `lossy = true`;
otherwise the captured stdout is returned with format tag "webm". -/
def process_video (ffmpeg : Bool → Except Unit FfmpegOutput) (lossy : Bool) :
    Except AppError (List Nat × String) × List Effect :=
  match ffmpeg lossy with
  | Except.error _ => (Except.error (AppError.other "spawn"), [Effect.ffmpeg lossy])
  | Except.ok out =>
      if out.success = false then
        (Except.error (AppError.other "ffmpeg"), [Effect.ffmpeg lossy])
      else if h : lossy = false ∧ out.stdout.length > MAX_OUTPUT_WEBM_SIZE then
        let r := process_video ffmpeg true
        (r.1, Effect.ffmpeg lossy :: r.2)
      else
        (Except.ok (out.stdout, "webm"), [Effect.ffmpeg lossy])
termination_by (if lossy then 0 else 1)
decreasing_by simp [h.1]

/-- `async fn handle_image` (main.rs lines 120-125): download the file's
bytes, then `process_image`. -/
def handle_image {Img : Type} (env : Env Img) (file_path : String) :
    Except AppError (List Nat × String) × List Effect :=
  match env.download file_path with
  | Except.error _ => (Except.error (AppError.other "download"), [Effect.download file_path])
  | Except.ok v =>
      let r := process_image env v
      (r.1, Effect.download file_path :: r.2)

/-- `async fn handle_video` (main.rs lines 127-135): download the file to a
temporary path, then `process_video` starting from the lossless attempt. -/
def handle_video {Img : Type} (env : Env Img) (file_path : String) :
    Except AppError (List Nat × String) × List Effect :=
  match env.download file_path with
  | Except.error _ => (Except.error (AppError.other "download"), [Effect.download file_path])
  | Except.ok _ =>
      let r := process_video env.ffmpeg false
      (r.1, Effect.download file_path :: r.2)

/-- `async fn handle_media` (main.rs lines 137-151): fetch the file metadata,
re-check its size against `MAX_SIZE`, then dispatch on `is_video`. -/
def handle_media {Img : Type} (env : Env Img) (file_id : String) (is_video : Bool) :
    Except AppError (List Nat × String) × List Effect :=
  match env.getFile file_id with
  | Except.error _ => (Except.error (AppError.other "get_file"), [Effect.getFile file_id])
  | Except.ok (file_path, file_size) =>
      if file_size > MAX_SIZE then
        (Except.error (AppError.other "File too big"), [Effect.getFile file_id])
      else
        let r := if is_video then handle_video env file_path else handle_image env file_path
        (r.1, Effect.getFile file_id :: r.2)

/-- `teloxide::types::PhotoSize`: the fields the handler reads. -/
structure PhotoSize where
  file_id : String
  width : Nat
  height : Nat
  file_size : Nat
deriving DecidableEq, Repr

/-- `teloxide::types::Document`: the fields the handler reads. -/
structure Document where
  file_id : String
  file_size : Nat
  file_name : Option String
deriving DecidableEq, Repr

/-- `teloxide::types::Animation`: the fields the handler reads. -/
structure Animation where
  file_id : String
  file_size : Nat
  file_name : Option String
deriving DecidableEq, Repr

/-- An inbound message, restricted to the accessors the handler uses, in the
order it tries them: `document()`, `photo()`, `animation()`, `text()`. -/
structure Msg where
  document : Option Document
  photo : Option (List PhotoSize)
  animation : Option Animation
  text : Option String
deriving DecidableEq, Repr

/-- Rust `str::ends_with` on UTF-8 strings: the pattern's bytes are a
suffix of the string's bytes, i.e. its characters are a suffix of the
string's characters. -/
def ends_with (s sfx : String) : Bool := sfx.data.isSuffixOf s.data

/-- The photo-size selection of the handler (main.rs lines 174-177):
`sizes.iter().find(|ph| ph.width >= 512 || ph.height >= 512)
      .unwrap_or_else(|| sizes.last().unwrap())`.
The `unwrap` panic on an empty list is modelled by `none`. -/
def selectPhoto (sizes : List PhotoSize) : Option PhotoSize :=
  match sizes.find? (fun ph => decide (ph.width ≥ 512) || decide (ph.height ≥ 512)) with
  | some ph => some ph
  | none => sizes.getLast?

/-- The attachment-extraction prefix of `handler` (main.rs lines 162-199):
produces either an early reply (`Except.error`), or the selected
`(file_id, size, file_name, is_video)` tuple, or `none` for the
empty-photo-list panic. -/
def extract (msg : Msg) : Option (Except String (String × Nat × Option String × Bool)) :=
  match msg.document with
  | some doc =>
      let is_video := match doc.file_name with
        | some s => ends_with s ".gif"
        | none => false
      some (Except.ok (doc.file_id, doc.file_size, doc.file_name, is_video))
  | none =>
      match msg.photo with
      | some sizes =>
          match selectPhoto sizes with
          | some ph => some (Except.ok (ph.file_id, ph.file_size, none, false))
          | none => none
      | none =>
          match msg.animation with
          | some ani => some (Except.ok (ani.file_id, ani.file_size, ani.file_name, true))
          | none =>
              if msg.text = some "/start" then
                some (Except.error "Hi! Send me an image or a GIF animation, and I\x27ll convert it for use with @Stickers.")
              else
                some (Except.error "Please send an image or an GIF animation.")

/-- The output-name composition of `handler` (main.rs lines 209-217): clone
the declared file name (or "out" when absent), push a dot, push the new
format tag. -/
def out_name (file_name : Option String) (suf : String) : String :=
  (match file_name with
   | some s => s ++ "."
   | none => "out.") ++ suf

/-- The error reporting of `handler` (main.rs lines 225-232): a `BadRequest`
message is shown verbatim, anything else becomes a generic message. -/
def errorToReply : AppError → String
  | AppError.badRequest m => m
  | AppError.other _ => "Something went wrong."

/-- The tail of `handler` after the attachment tuple is known
(main.rs lines 201-234): the declared-size ceiling check, the conversion,
name composition and sending, and the error reporting. -/
def handlerRest {Img : Type} (env : Env Img) (file_id : String) (size : Nat)
    (file_name : Option String) (is_video : Bool) : String × List Effect :=
  if size > MAX_SIZE then ("File is too big.", [])
  else
    let r := handle_media env file_id is_video
    match r.1 with
    | Except.ok (f, suf) =>
        let n := out_name file_name suf
        (match env.sendDocument n f with
         | Except.ok _ => ""
         | Except.error _ => "Failed to send file.",
         r.2 ++ [Effect.send n])
    | Except.error e => (errorToReply e, r.2)

/-- `async fn handler` (main.rs lines 153-235).  `none` models the panic on
an empty photo-size list; otherwise the result is the reply text (empty when
the converted document was sent successfully) together with the trace of
external effects. -/
def handler {Img : Type} (env : Env Img) (msg : Msg) : Option (String × List Effect) :=
  match extract msg with
  | none => none
  | some (Except.error reply) => some (reply, [])
  | some (Except.ok (file_id, size, file_name, is_video)) =>
      some (handlerRest env file_id size file_name is_video)

/-- The outcome of a single external invocation with the given lossy flag,
with no size inspection: error on a spawn/wait failure or a non-zero exit,
otherwise the captured stdout with format tag "webm".  Used to state that
the second (lossy) attempt's result is accepted unconditionally. -/
def attemptResult (ffmpeg : Bool → Except Unit FfmpegOutput) (lossy : Bool) :
    Except AppError (List Nat × String) :=
  match ffmpeg lossy with
  | Except.error _ => Except.error (AppError.other "spawn")
  | Except.ok out =>
      if out.success = false then Except.error (AppError.other "ffmpeg")
      else Except.ok (out.stdout, "webm")

/-- The first (lossless) invocation exited successfully and produced output
strictly larger than `MAX_OUTPUT_WEBM_SIZE`. -/
def losslessTooBig (ffmpeg : Bool → Except Unit FfmpegOutput) : Prop :=
  ∃ out, ffmpeg false = Except.ok out ∧ out.success = true ∧
    out.stdout.length > MAX_OUTPUT_WEBM_SIZE

/-- Modelled from the spec: the dimension computation of the `image` crate's
`DynamicImage::resize` (library code, not part of this repository), i.e. the
bounding-box fit that "resizes to fit within a 512×512 bounding box,
preserving aspect ratio": both dimensions are scaled by the smaller of the
two bound/source ratios, the scaled values are rounded, and each result is
at least one pixel. -/
def resizeDimensions (width height nwidth nheight : Nat) : Nat × Nat :=
  let wratio : ℚ := nwidth / width
  let hratio : ℚ := nheight / height
  let ratio := min wratio hratio
  (max (round ((width : ℚ) * ratio)).toNat 1,
   max (round ((height : ℚ) * ratio)).toNat 1)

/-- The characters of a filename with its (last-dot) extension removed;
identity when the name contains no dot. -/
def stemChars (cs : List Char) : List Char :=
  if ('.' ∈ cs) then ((cs.reverse.dropWhile (fun c => c ≠ '.')).drop 1).reverse else cs

/-- The stem of a filename: the name with its old extension removed. -/
def stem (s : String) : String := String.mk (stemChars s.data)

/-- The output naming in the spec's words: "if the original attachment
carried a filename, reuse its stem and append the new format's extension;
otherwise synthesize a default name using the new extension".  Stated as a
second definition, to be compared with `out_name` translated from the
source. -/
def outNameSpec (file_name : Option String) (suf : String) : String :=
  match file_name with
  | some s => stem s ++ "." ++ suf
  | none => "out." ++ suf

/-- A concrete `ffmpeg` oracle whose lossless attempt succeeds and produces
more than `MAX_OUTPUT_WEBM_SIZE` bytes and whose lossy attempt succeeds with
a small output. -/
def runBig : Bool → Except Unit FfmpegOutput :=
  fun b => Except.ok ⟨true, if b then [1, 2] else List.replicate (MAX_OUTPUT_WEBM_SIZE + 1) 0⟩

/-- A concrete `ffmpeg` oracle producing exactly `MAX_OUTPUT_WEBM_SIZE`
bytes on every attempt. -/
def runEq : Bool → Except Unit FfmpegOutput :=
  fun _ => Except.ok ⟨true, List.replicate MAX_OUTPUT_WEBM_SIZE 0⟩

/-- A concrete `ffmpeg` oracle producing a small output on every attempt. -/
def runSmall : Bool → Except Unit FfmpegOutput :=
  fun _ => Except.ok ⟨true, [7]⟩

/-- A concrete `ffmpeg` oracle that exits successfully with an empty
standard output. -/
def runEmptyOut : Bool → Except Unit FfmpegOutput :=
  fun _ => Except.ok ⟨true, []⟩

/-- A concrete environment whose decoder rejects every buffer. -/
def envNone : Env Unit where
  getFile := fun _ => Except.error ()
  download := fun _ => Except.error ()
  decode := fun _ => none
  resize := id
  webpEncodeLossless := fun _ => none
  pngEncode := fun _ => Except.error ()
  ffmpeg := fun _ => Except.error ()
  sendDocument := fun _ _ => Except.ok ()

/-- A concrete environment whose decoder accepts every buffer, whose webp
encoder always reports its limitation and whose png encoder always
succeeds. -/
def envPng : Env Unit where
  getFile := fun _ => Except.error ()
  download := fun _ => Except.error ()
  decode := fun _ => some ()
  resize := id
  webpEncodeLossless := fun _ => none
  pngEncode := fun _ => Except.ok [9]
  ffmpeg := fun _ => Except.error ()
  sendDocument := fun _ _ => Except.ok ()

/-- A concrete message carrying a document named "a.gif". -/
def msgGif : Msg where
  document := some ⟨"id", 5, some "a.gif"⟩
  photo := none
  animation := none
  text := none

/-- A concrete photo-size list whose second element is the first with a
dimension of at least 512. -/
def photoSizesBig : List PhotoSize :=
  [⟨"s1", 100, 100, 1⟩, ⟨"s2", 600, 100, 2⟩, ⟨"s3", 700, 800, 3⟩]

theorem process_video_lossy (f : Bool → Except Unit FfmpegOutput) :
    process_video f true = (attemptResult f true, [Effect.ffmpeg true]) := by
  rw [process_video.eq_def]
  cases h : f true with
  | error e => simp [attemptResult, h]
  | ok out => cases hs : out.success <;> simp [attemptResult, h, hs]

theorem process_video_lossless (f : Bool → Except Unit FfmpegOutput) :
    process_video f false =
      match f false with
      | Except.error _ => (Except.error (AppError.other "spawn"), [Effect.ffmpeg false])
      | Except.ok out =>
          if out.success = false then
            (Except.error (AppError.other "ffmpeg"), [Effect.ffmpeg false])
          else if out.stdout.length > MAX_OUTPUT_WEBM_SIZE then
            (attemptResult f true, [Effect.ffmpeg false, Effect.ffmpeg true])
          else
            (Except.ok (out.stdout, "webm"), [Effect.ffmpeg false]) := by
  rw [process_video.eq_def]
  cases h : f false with
  | error e => simp
  | ok out =>
      cases hs : out.success with
      | false => simp [hs]
      | true =>
          by_cases hb : out.stdout.length > MAX_OUTPUT_WEBM_SIZE
          · simp [hs, hb, process_video_lossy]
          · simp [hs, hb]

theorem process_video_spec (f : Bool → Except Unit FfmpegOutput) :
    (¬ losslessTooBig f ∧
      process_video f false = (attemptResult f false, [Effect.ffmpeg false]))
    ∨ (losslessTooBig f ∧
      process_video f false = (attemptResult f true, [Effect.ffmpeg false, Effect.ffmpeg true])) := by
  have hu := process_video_lossless f
  by_cases hbig : losslessTooBig f
  · right
    refine ⟨hbig, ?_⟩
    obtain ⟨out, hf, hs, hb⟩ := hbig
    rw [hf] at hu
    simp only [hs, hb] at hu
    simpa using hu
  · left
    refine ⟨hbig, ?_⟩
    cases hf : f false with
    | error e => rw [hf] at hu; simpa [attemptResult, hf] using hu
    | ok out =>
        rw [hf] at hu
        cases hs : out.success with
        | false => simp only [hs] at hu; simpa [attemptResult, hf, hs] using hu
        | true =>
            have hb : ¬ out.stdout.length > MAX_OUTPUT_WEBM_SIZE :=
              fun hb => hbig ⟨out, hf, hs, hb⟩
            simp only [hs, hb] at hu
            simpa [attemptResult, hf, hs] using hu

/-- C1: For every clip request, the external transcoding process is invoked
at most twice; a second invocation occurs only if the first (lossless)
invocation exited successfully and produced output strictly greater than
256,000 bytes, and that second invocation runs with the lossless profile
disabled (no `-lossless 1` argument) and its result is returned regardless
of its size. -/
theorem process_video_at_most_two (f : Bool → Except Unit FfmpegOutput) :
    ((process_video f false).2 = [Effect.ffmpeg false] ∧ ¬ losslessTooBig f)
    ∨ ((process_video f false).2 = [Effect.ffmpeg false, Effect.ffmpeg true] ∧
        losslessTooBig f ∧
        (process_video f false).1 = attemptResult f true ∧
        MAX_OUTPUT_WEBM_SIZE = 256000 ∧
        "-lossless" ∈ ffmpeg_args false "in.mp4" ∧
        "-lossless" ∉ ffmpeg_args true "in.mp4") := by
  rcases process_video_spec f with ⟨hn, hu⟩ | ⟨hb, hu⟩
  · exact Or.inl ⟨by rw [hu], hn⟩
  · exact Or.inr ⟨by rw [hu], hb, by rw [hu], by decide, by decide, by decide⟩

/-- C1 witness: with a successful oversized lossless first pass, the trace
has exactly the lossless invocation followed by the lossy one. -/
theorem process_video_at_most_two_witness :
    (process_video runBig false).2 = [Effect.ffmpeg false, Effect.ffmpeg true] := by
  rcases process_video_at_most_two runBig with ⟨_, hn⟩ | ⟨h, _⟩
  · exact absurd
      ⟨⟨true, List.replicate (MAX_OUTPUT_WEBM_SIZE + 1) 0⟩, rfl, rfl, by simp⟩ hn
  · exact h

/-- C10: A lossless first-pass output of exactly 256,000 bytes (the ceiling
itself) is accepted and returned without a second lossy invocation: the
comparison against the output-size ceiling is strict greater-than. -/
theorem exact_ceiling_no_retry (f : Bool → Except Unit FfmpegOutput)
    (out : FfmpegOutput) (h1 : f false = Except.ok out)
    (h2 : out.success = true) (h3 : out.stdout.length = MAX_OUTPUT_WEBM_SIZE) :
    process_video f false = (Except.ok (out.stdout, "webm"), [Effect.ffmpeg false]) := by
  have hu := process_video_lossless f
  rw [h1] at hu
  simpa [h2, h3] using hu

/-- C10 witness: a concrete first pass of exactly `MAX_OUTPUT_WEBM_SIZE`
bytes is returned as-is after a single invocation. -/
theorem exact_ceiling_no_retry_witness :
    process_video runEq false =
      (Except.ok (List.replicate MAX_OUTPUT_WEBM_SIZE 0, "webm"), [Effect.ffmpeg false]) :=
  exact_ceiling_no_retry runEq ⟨true, List.replicate MAX_OUTPUT_WEBM_SIZE 0⟩ rfl rfl (by simp)

/-- C8 counterexample: an external process that exits successfully with an
empty standard output makes the conversion succeed with an empty byte
buffer, so "the returned byte buffer is non-empty on every successful
conversion" is false as stated. -/
theorem conversion_nonempty_counterexample :
    (process_video runEmptyOut false).1 = Except.ok (([] : List Nat), "webm") ∧
    ¬ (∀ (f : Bool → Except Unit FfmpegOutput) (b : List Nat) (t : String),
        (process_video f false).1 = Except.ok (b, t) → b ≠ []) := by
  have hu := process_video_lossless runEmptyOut
  have h : process_video runEmptyOut false =
      (Except.ok (([] : List Nat), "webm"), [Effect.ffmpeg false]) := by
    simpa [runEmptyOut, MAX_OUTPUT_WEBM_SIZE] using hu
  exact ⟨by rw [h], fun hall => hall runEmptyOut [] "webm" (by rw [h]) rfl⟩

/-- C8 amended: on every successful conversion the returned format tag
matches the encoding path actually taken, and the returned bytes are the
unmodified output of that path's encoder (hence non-empty exactly when the
external encoder's output is non-empty). -/
theorem conversion_result_matches_path :
    (∀ (f : Bool → Except Unit FfmpegOutput) (b : List Nat) (t : String),
        (process_video f false).1 = Except.ok (b, t) →
        t = "webm" ∧ ∃ out lossy, f lossy = Except.ok out ∧ out.success = true ∧
          b = out.stdout)
    ∧ (∀ (Img : Type) (env : Env Img) (buf b : List Nat) (t : String),
        (process_image env buf).1 = Except.ok (b, t) →
        ∃ img, env.decode buf = some img ∧
          ((t = "webp" ∧ env.webpEncodeLossless (env.resize img) = some b) ∨
           (t = "png" ∧ env.webpEncodeLossless (env.resize img) = none ∧
              env.pngEncode (env.resize img) = Except.ok b))) := by
  constructor
  · intro f b t h
    have key : ∀ lossy, attemptResult f lossy = Except.ok (b, t) →
        t = "webm" ∧ ∃ out l, f l = Except.ok out ∧ out.success = true ∧ b = out.stdout := by
      intro lossy ha
      unfold attemptResult at ha
      cases hf : f lossy with
      | error e => rw [hf] at ha; cases ha
      | ok out =>
          rw [hf] at ha
          cases hs : out.success with
          | false => simp [hs] at ha
          | true =>
              simp only [hs] at ha
              simp at ha
              exact ⟨ha.2.symm, out, lossy, hf, hs, ha.1.symm⟩
    rcases process_video_spec f with ⟨_, hu⟩ | ⟨_, hu⟩
    · rw [hu] at h; exact key false h
    · rw [hu] at h; exact key true h
  · intro Img env buf b t h
    cases hd : env.decode buf with
    | none => simp [process_image, hd] at h
    | some img =>
        refine ⟨img, rfl, ?_⟩
        cases hw : env.webpEncodeLossless (env.resize img) with
        | some mem =>
            simp [process_image, hd, hw] at h
            exact Or.inl ⟨h.2.symm, by rw [← h.1]⟩
        | none =>
            cases hp : env.pngEncode (env.resize img) with
            | ok v =>
                simp [process_image, hd, hw, hp] at h
                exact Or.inr ⟨h.2.symm, rfl, by rw [← h.1]⟩
            | error e => simp [process_image, hd, hw, hp] at h

/-- C8 amended witness: a concrete successful clip conversion returns tag
"webm" and the external process's own captured output. -/
theorem conversion_result_matches_path_witness :
    "webm" = "webm" ∧ ∃ out lossy, runSmall lossy = Except.ok out ∧
      out.success = true ∧ [7] = out.stdout :=
  conversion_result_matches_path.1 runSmall [7] "webm" (by
    have hu := process_video_lossless runSmall
    have h : process_video runSmall false =
        (Except.ok (([7] : List Nat), "webm"), [Effect.ffmpeg false]) := by
      simpa [runSmall, MAX_OUTPUT_WEBM_SIZE] using hu
    rw [h])

/-- C3: For every input byte buffer that the still-image decoder rejects
(the oracle returns `none`, covering random bytes, truncated headers and the
empty buffer alike), `process_image` returns the `BadRequest`
"File is not an image!", and the handler's error reporting shows a
`BadRequest` message to the user verbatim. -/
theorem decode_failure_not_an_image {Img : Type} (env : Env Img)
    (buf : List Nat) (h : env.decode buf = none) :
    (process_image env buf).1 =
      Except.error (AppError.badRequest "File is not an image!") ∧
    errorToReply (AppError.badRequest "File is not an image!") =
      "File is not an image!" := by
  simp [process_image, h, errorToReply]

/-- C3 witness: the empty buffer under a decoder that rejects everything. -/
theorem decode_failure_not_an_image_witness :
    (process_image envNone []).1 =
      Except.error (AppError.badRequest "File is not an image!") ∧
    errorToReply (AppError.badRequest "File is not an image!") =
      "File is not an image!" :=
  decode_failure_not_an_image envNone [] rfl

/-- C4: Every request whose declared size exceeds `MAX_SIZE` (10 MiB) is
answered "File is too big." with an empty effect trace: no metadata fetch,
download, decode or external-process invocation occurs. -/
theorem too_large_rejected {Img : Type} (env : Env Img) (file_id : String)
    (size : Nat) (file_name : Option String) (is_video : Bool)
    (h : size > MAX_SIZE) :
    MAX_SIZE = 10 * 1024 * 1024 ∧
    handlerRest env file_id size file_name is_video = ("File is too big.", []) ∧
    handler env { document := some ⟨file_id, size, file_name⟩, photo := none,
                  animation := none, text := none } =
      some ("File is too big.", []) := by
  refine ⟨by decide, by simp [handlerRest, h], ?_⟩
  cases file_name <;> simp [handler, extract, handlerRest, h]

/-- C4 witness: a declared size one byte over the ceiling is rejected with
no effects. -/
theorem too_large_rejected_witness :
    MAX_SIZE = 10 * 1024 * 1024 ∧
    handlerRest envNone "id" (MAX_SIZE + 1) none false = ("File is too big.", []) ∧
    handler envNone { document := some ⟨"id", MAX_SIZE + 1, none⟩, photo := none,
                      animation := none, text := none } =
      some ("File is too big.", []) :=
  too_large_rejected envNone "id" (MAX_SIZE + 1) none false (Nat.lt_succ_self _)

theorem process_image_trace {Img : Type} (env : Env Img) (file : List Nat) :
    (process_image env file).2 = [Effect.decode] := by
  cases h : env.decode file <;> simp [process_image, h]

theorem process_video_trace (f : Bool → Except Unit FfmpegOutput) :
    (process_video f false).2 = [Effect.ffmpeg false] ∨
    (process_video f false).2 = [Effect.ffmpeg false, Effect.ffmpeg true] := by
  rcases process_video_spec f with ⟨_, hu⟩ | ⟨_, hu⟩
  · exact Or.inl (by rw [hu])
  · exact Or.inr (by rw [hu])

/-- C2 counterexample: for the declared filename "a.gif" and format tag
"webm" the source composes "a.gif.webm" — the old extension is kept — while
the stem-based naming of the claim gives "a.webm". -/
theorem out_name_keeps_extension_counterexample :
    out_name (some "a.gif") "webm" = "a.gif.webm" ∧
    outNameSpec (some "a.gif") "webm" = "a.webm" ∧
    out_name (some "a.gif") "webm" ≠ outNameSpec (some "a.gif") "webm" := by
  refine ⟨by decide, by decide, by decide⟩

/-- C2 amended: when a successfully converted attachment carried an original
filename, the composed output filename is the full original filename — the
old extension is not removed — followed by a dot and the new format's
extension; when no filename was carried, the default is "out" plus the new
extension.  The composition agrees with the spec's stem-based naming exactly
when the original filename has nothing to strip. -/
theorem out_name_amended (s suf : String) :
    out_name (some s) suf = s ++ "." ++ suf ∧
    out_name none suf = "out." ++ suf ∧
    (stemChars s.data = s.data →
      out_name (some s) suf = outNameSpec (some s) suf) := by
  refine ⟨rfl, rfl, fun h => ?_⟩
  have hs : stem s = s := by
    show String.mk (stemChars s.data) = s
    rw [h]
  simp [out_name, outNameSpec, hs]

/-- C2 amended witness: a dot-free filename, where the source naming and the
stem-based naming agree. -/
theorem out_name_amended_witness :
    out_name (some "sticker") "webp" = outNameSpec (some "sticker") "webp" :=
  (out_name_amended "sticker" "webp").2.2 (by decide)

/-- C6: For every successfully decoded image, provided the png encoder
succeeds on every resized buffer (the spec's guarantee for the external
encoder), `process_image` returns a success whose format tag is "webp" or
"png"; when the webp encoder reports its limitation, the result is the png
encoding of the same resized buffer.  The post-decode error branch is
therefore unreachable. -/
theorem webp_fallback {Img : Type} (env : Env Img) (buf : List Nat)
    (img : Img) (hdec : env.decode buf = some img)
    (hpng : ∀ i : Img, ∃ v, env.pngEncode i = Except.ok v) :
    ∃ b t, (process_image env buf).1 = Except.ok (b, t) ∧
      (t = "webp" ∨ t = "png") ∧
      (env.webpEncodeLossless (env.resize img) = none →
        env.pngEncode (env.resize img) = Except.ok b ∧ t = "png") := by
  cases hw : env.webpEncodeLossless (env.resize img) with
  | some mem =>
      exact ⟨mem, "webp", by simp [process_image, hdec, hw], Or.inl rfl,
        fun hn => by simp [hw] at hn⟩
  | none =>
      obtain ⟨v, hv⟩ := hpng (env.resize img)
      exact ⟨v, "png", by simp [process_image, hdec, hw, hv], Or.inr rfl,
        fun _ => ⟨hv, rfl⟩⟩

/-- C6 witness: an environment whose webp encoder always reports its
limitation and whose png encoder always succeeds. -/
theorem webp_fallback_witness :
    ∃ b t, (process_image envPng []).1 = Except.ok (b, t) ∧
      (t = "webp" ∨ t = "png") ∧
      (envPng.webpEncodeLossless (envPng.resize ()) = none →
        envPng.pngEncode (envPng.resize ()) = Except.ok b ∧ t = "png") :=
  webp_fallback envPng [] () rfl (fun _ => ⟨[9], rfl⟩)

/-- C7: An attachment is routed as a clip (`is_video = true`) exactly when
the message is handled through its animation accessor, or through its
document accessor with a declared filename ending in ".gif"; photo
attachments and all other documents are routed as still images.  The clip
route performs no still-image decode and the still route never invokes the
external process. -/
theorem clip_routing (msg : Msg) (fid : String) (size : Nat)
    (fn : Option String) (iv : Bool)
    (h : extract msg = some (Except.ok (fid, size, fn, iv))) :
    (iv = true ↔
      ((∃ doc s, msg.document = some doc ∧ doc.file_name = some s ∧
          ends_with s ".gif" = true) ∨
       (msg.document = none ∧ msg.photo = none ∧
          ∃ ani, msg.animation = some ani)))
    ∧ (∀ (Img : Type) (env : Env Img) (p : String),
        Effect.decode ∉ (handle_media env p true).2 ∧
        ∀ b, Effect.ffmpeg b ∉ (handle_media env p false).2) := by
  constructor
  · obtain ⟨mdoc, mphoto, mani, mtext⟩ := msg
    cases mdoc with
    | some doc =>
        cases hfn : doc.file_name with
        | some s =>
            simp only [extract, hfn, Option.some.injEq, Except.ok.injEq,
              Prod.mk.injEq] at h
            obtain ⟨-, -, -, hiv⟩ := h
            constructor
            · intro he
              exact Or.inl ⟨doc, s, rfl, hfn, by rw [hiv, he]⟩
            · rintro (⟨doc2, s2, hd2, hf2, he2⟩ | ⟨hn, -⟩)
              · obtain rfl : doc = doc2 := by injection hd2
                rw [hfn] at hf2
                obtain rfl : s = s2 := by injection hf2
                rw [hiv] at he2
                exact he2
              · cases hn
        | none =>
            simp only [extract, hfn, Option.some.injEq, Except.ok.injEq,
              Prod.mk.injEq] at h
            obtain ⟨-, -, -, hiv⟩ := h
            constructor
            · intro he
              cases hiv.trans he
            · rintro (⟨doc2, s2, hd2, hf2, -⟩ | ⟨hn, -⟩)
              · obtain rfl : doc = doc2 := by injection hd2
                rw [hfn] at hf2
                cases hf2
              · cases hn
    | none =>
        cases mphoto with
        | some sizes =>
            cases hsel : selectPhoto sizes with
            | some ph =>
                simp only [extract, hsel, Option.some.injEq, Except.ok.injEq,
                  Prod.mk.injEq] at h
                obtain ⟨-, -, -, hiv⟩ := h
                constructor
                · intro he
                  cases hiv.trans he
                · rintro (⟨doc2, s2, hd2, -, -⟩ | ⟨-, hp, -⟩)
                  · cases hd2
                  · cases hp
            | none => simp [extract, hsel] at h
        | none =>
            cases mani with
            | some ani =>
                simp only [extract, Option.some.injEq, Except.ok.injEq,
                  Prod.mk.injEq] at h
                obtain ⟨-, -, -, hiv⟩ := h
                exact ⟨fun _ => Or.inr ⟨rfl, rfl, ani, rfl⟩, fun _ => hiv.symm⟩
            | none =>
                by_cases ht : mtext = some "/start" <;> simp [extract, ht] at h
  · intro Img env p
    constructor
    · cases hg : env.getFile p with
      | error e => simp [handle_media, hg]
      | ok pr =>
          obtain ⟨path, sz⟩ := pr
          by_cases hsz : sz > MAX_SIZE
          · simp [handle_media, hg, hsz]
          · cases hd : env.download path with
            | error e => simp [handle_media, hg, hsz, handle_video, hd]
            | ok v =>
                rcases process_video_trace env.ffmpeg with hu | hu <;>
                  simp [handle_media, hg, hsz, handle_video, hd, hu]
    · intro b
      cases hg : env.getFile p with
      | error e => simp [handle_media, hg]
      | ok pr =>
          obtain ⟨path, sz⟩ := pr
          by_cases hsz : sz > MAX_SIZE
          · simp [handle_media, hg, hsz]
          · cases hd : env.download path with
            | error e => simp [handle_media, hg, hsz, handle_image, hd]
            | ok v =>
                simp [handle_media, hg, hsz, handle_image, hd,
                  process_image_trace env v]

/-- C7 witness: a gif-named document is routed as a clip, and the clip route
performs no still-image decode. -/
theorem clip_routing_witness :
    Effect.decode ∉ (handle_media envNone "p" true).2 :=
  ((clip_routing msgGif "id" 5 (some "a.gif") true rfl).2 Unit envNone "p").1

theorem find_decomp {α : Type} (p : α → Bool) (l : List α) (a : α)
    (h : l.find? p = some a) :
    p a = true ∧ ∃ l1 l2, l = l1 ++ a :: l2 ∧ ∀ x ∈ l1, p x = false := by
  induction l with
  | nil => simp at h
  | cons x xs ih =>
      by_cases hx : p x = true
      · rw [List.find?_cons_of_pos _ hx] at h
        obtain rfl : x = a := by injection h
        exact ⟨hx, [], xs, rfl, by simp⟩
      · rw [List.find?_cons_of_neg _ hx] at h
        obtain ⟨hp, l1, l2, rfl, hall⟩ := ih h
        refine ⟨hp, x :: l1, l2, rfl, ?_⟩
        intro y hy
        rcases List.mem_cons.mp hy with rfl | hy2
        · simpa using hx
        · exact hall y hy2

/-- C9: For every photo message, the handler selects for download the first
listed photo size whose width or height is at least 512 and, when no listed
size is that large, the last listed size; an empty photo-size list makes the
handler panic (modelled by `none`). -/
theorem photo_selection (sizes : List PhotoSize) :
    (sizes = [] → selectPhoto sizes = none ∧
      ∀ (Img : Type) (env : Env Img),
        handler env { document := none, photo := some sizes,
                      animation := none, text := none } = none)
    ∧ (∀ ph, selectPhoto sizes = some ph →
        (((ph.width ≥ 512 ∨ ph.height ≥ 512) ∧
           ∃ l1 l2, sizes = l1 ++ ph :: l2 ∧
             ∀ q ∈ l1, q.width < 512 ∧ q.height < 512)
         ∨ ((∀ q ∈ sizes, q.width < 512 ∧ q.height < 512) ∧
             sizes.getLast? = some ph))
        ∧ ∀ (Img : Type) (env : Env Img),
            handler env { document := none, photo := some sizes,
                          animation := none, text := none } =
              some (handlerRest env ph.file_id ph.file_size none false)) := by
  constructor
  · rintro rfl
    exact ⟨rfl, fun Img env => rfl⟩
  · intro ph hph
    constructor
    · unfold selectPhoto at hph
      cases hf : sizes.find?
          (fun ph => decide (ph.width ≥ 512) || decide (ph.height ≥ 512)) with
      | some q =>
          rw [hf] at hph
          obtain rfl : q = ph := by injection hph
          obtain ⟨hp, l1, l2, rfl, hall⟩ := find_decomp _ _ _ hf
          left
          refine ⟨by simpa using hp, l1, l2, rfl, ?_⟩
          intro y hy
          have hy2 := hall y hy
          simp only [Bool.or_eq_false_iff, decide_eq_false_iff_not, Nat.not_le] at hy2
          exact hy2
      | none =>
          rw [hf] at hph
          right
          refine ⟨?_, hph⟩
          intro q hq
          have h2 := List.find?_eq_none.mp hf q hq
          simp only [Bool.or_eq_true, decide_eq_true_eq, not_or, Nat.not_le] at h2
          exact h2
    · intro Img env
      simp [handler, extract, hph]

/-- C9 witness: in a concrete list whose second element is the first with a
dimension of at least 512, that element is selected and drives the rest of
the handler. -/
theorem photo_selection_witness :
    handler envNone { document := none, photo := some photoSizesBig,
                      animation := none, text := none } =
      some (handlerRest envNone "s2" 2 none false) :=
  ((photo_selection photoSizesBig).2 ⟨"s2", 600, 100, 2⟩ rfl).2 Unit envNone

theorem round_mono_q {x y : ℚ} (hxy : x ≤ y) : round x ≤ round y := by
  rw [round_eq, round_eq]
  exact Int.floor_mono (by linarith)

/-- C5: For every successfully decoded image (dimensions at least 1), the
bounding-box resize to 512×512 yields both dimensions at most 512, maps the
limiting dimension to exactly 512, shrinks any source with a dimension over
512 and enlarges any source with both dimensions under 512. -/
theorem resize_bounding_box (w h : Nat) (hw : 1 ≤ w) (hh : 1 ≤ h) :
    ((resizeDimensions w h 512 512).1 ≤ 512 ∧ (resizeDimensions w h 512 512).2 ≤ 512) ∧
    (h ≤ w → (resizeDimensions w h 512 512).1 = 512) ∧
    (w ≤ h → (resizeDimensions w h 512 512).2 = 512) ∧
    ((512 < w ∨ 512 < h) →
      (resizeDimensions w h 512 512).1 ≤ w ∧ (resizeDimensions w h 512 512).2 ≤ h) ∧
    (w < 512 ∧ h < 512 →
      w ≤ (resizeDimensions w h 512 512).1 ∧ h ≤ (resizeDimensions w h 512 512).2) := by
  have hwq : (0:ℚ) < (w:ℚ) := by exact_mod_cast hw
  have hhq : (0:ℚ) < (h:ℚ) := by exact_mod_cast hh
  simp only [resizeDimensions, Nat.cast_ofNat]
  set r : ℚ := min ((512:ℚ) / (w:ℚ)) ((512:ℚ) / (h:ℚ)) with hrdef
  have hr0 : 0 ≤ r := le_min (by positivity) (by positivity)
  have hwr : (w:ℚ) * ((512:ℚ) / (w:ℚ)) = 512 := by field_simp
  have hhr : (h:ℚ) * ((512:ℚ) / (h:ℚ)) = 512 := by field_simp
  have hle1 : (w:ℚ) * r ≤ 512 := by
    calc (w:ℚ) * r ≤ (w:ℚ) * ((512:ℚ) / (w:ℚ)) := by
          exact mul_le_mul_of_nonneg_left (min_le_left _ _) (le_of_lt hwq)
      _ = 512 := hwr
  have hle2 : (h:ℚ) * r ≤ 512 := by
    calc (h:ℚ) * r ≤ (h:ℚ) * ((512:ℚ) / (h:ℚ)) := by
          exact mul_le_mul_of_nonneg_left (min_le_right _ _) (le_of_lt hhq)
      _ = 512 := hhr
  have round512 : round ((512:ℚ)) = 512 := by norm_num [round_eq]
  have rw512 : round ((w:ℚ) * r) ≤ 512 := by
    calc round ((w:ℚ) * r) ≤ round ((512:ℚ)) := round_mono_q hle1
      _ = 512 := round512
  have rh512 : round ((h:ℚ) * r) ≤ 512 := by
    calc round ((h:ℚ) * r) ≤ round ((512:ℚ)) := round_mono_q hle2
      _ = 512 := round512
  have p1le : max (round ((w:ℚ) * r)).toNat 1 ≤ 512 :=
    max_le (Int.toNat_le.mpr (by exact_mod_cast rw512)) (by norm_num)
  have p2le : max (round ((h:ℚ) * r)).toNat 1 ≤ 512 :=
    max_le (Int.toNat_le.mpr (by exact_mod_cast rh512)) (by norm_num)
  refine ⟨⟨p1le, p2le⟩, ?_, ?_, ?_, ?_⟩
  · -- h ≤ w → first component = 512
    intro hhw
    have hmin : r = (512:ℚ) / (w:ℚ) := by
      rw [hrdef]
      have hcast : (h:ℚ) ≤ (w:ℚ) := by exact_mod_cast hhw
      exact min_eq_left (by gcongr)
    rw [hmin, hwr, round512]
    decide
  · intro hwh
    have hmin : r = (512:ℚ) / (h:ℚ) := by
      rw [hrdef]
      have hcast : (w:ℚ) ≤ (h:ℚ) := by exact_mod_cast hwh
      exact min_eq_right (by gcongr)
    rw [hmin, hhr, round512]
    decide
  · -- shrink
    intro hbig
    have hr1 : r ≤ 1 := by
      rcases hbig with hb | hb
      · have : (512:ℚ) / (w:ℚ) ≤ 1 := by
          rw [div_le_one hwq]; exact_mod_cast le_of_lt hb
        exact le_trans (min_le_left _ _) this
      · have : (512:ℚ) / (h:ℚ) ≤ 1 := by
          rw [div_le_one hhq]; exact_mod_cast le_of_lt hb
        exact le_trans (min_le_right _ _) this
    have hww : (w:ℚ) * r ≤ (w:ℚ) := by
      calc (w:ℚ) * r ≤ (w:ℚ) * 1 := by
            exact mul_le_mul_of_nonneg_left hr1 (le_of_lt hwq)
        _ = (w:ℚ) := mul_one _
    have hhh : (h:ℚ) * r ≤ (h:ℚ) := by
      calc (h:ℚ) * r ≤ (h:ℚ) * 1 := by
            exact mul_le_mul_of_nonneg_left hr1 (le_of_lt hhq)
        _ = (h:ℚ) := mul_one _
    constructor
    · refine max_le ?_ hw
      refine Int.toNat_le.mpr ?_
      calc round ((w:ℚ) * r) ≤ round ((w:ℚ)) := round_mono_q hww
        _ = (w:ℤ) := round_natCast w
    · refine max_le ?_ hh
      refine Int.toNat_le.mpr ?_
      calc round ((h:ℚ) * r) ≤ round ((h:ℚ)) := round_mono_q hhh
        _ = (h:ℤ) := round_natCast h
  · -- enlarge
    rintro ⟨hbw, hbh⟩
    have hr1 : 1 ≤ r := by
      refine le_min ?_ ?_
      · rw [le_div_iff₀ hwq, one_mul]; exact_mod_cast le_of_lt hbw
      · rw [le_div_iff₀ hhq, one_mul]; exact_mod_cast le_of_lt hbh
    have hww : (w:ℚ) ≤ (w:ℚ) * r := by
      calc (w:ℚ) = (w:ℚ) * 1 := (mul_one _).symm
        _ ≤ (w:ℚ) * r := mul_le_mul_of_nonneg_left hr1 (le_of_lt hwq)
    have hhh : (h:ℚ) ≤ (h:ℚ) * r := by
      calc (h:ℚ) = (h:ℚ) * 1 := (mul_one _).symm
        _ ≤ (h:ℚ) * r := mul_le_mul_of_nonneg_left hr1 (le_of_lt hhq)
    have hrw0 : 0 ≤ round ((w:ℚ) * r) := by
      have := round_mono_q (mul_nonneg (le_of_lt hwq) hr0)
      simpa using this
    have hrh0 : 0 ≤ round ((h:ℚ) * r) := by
      have := round_mono_q (mul_nonneg (le_of_lt hhq) hr0)
      simpa using this
    constructor
    · refine le_trans ?_ (le_max_left _ _)
      refine (Int.le_toNat hrw0).mpr ?_
      calc ((w:ℕ):ℤ) = round ((w:ℚ)) := (round_natCast w).symm
        _ ≤ round ((w:ℚ) * r) := round_mono_q hww
    · refine le_trans ?_ (le_max_left _ _)
      refine (Int.le_toNat hrh0).mpr ?_
      calc ((h:ℕ):ℤ) = round ((h:ℚ)) := (round_natCast h).symm
        _ ≤ round ((h:ℚ) * r) := round_mono_q hhh

/-- C5 witness: a 2000×1000 source is resized with width exactly 512 and
height at most 512. -/
theorem resize_bounding_box_witness :
    (resizeDimensions 2000 1000 512 512).1 = 512 ∧
    (resizeDimensions 2000 1000 512 512).2 ≤ 512 :=
  ⟨(resize_bounding_box 2000 1000 (by decide) (by decide)).2.1 (by decide),
   (resize_bounding_box 2000 1000 (by decide) (by decide)).1.2⟩
